import Mathlib

/-!
# Verification of the prediction-market arbitrage engine

A shallow embedding of the opportunity-detection engine
(`src/rust_engine/src/engine.rs`) and the cross-venue matcher
(`src/rust_engine/src/cross_matcher.rs`).

Modelling conventions:
* Rust `f64` prices, fees and thresholds are modelled as exact rationals `ℚ`;
  every arithmetic identity proved here is the algebraic content of the
  corresponding floating-point computation.
* Rust `String` is Lean `String`.  `str::to_lowercase` is modelled on the
  ASCII range (all venue names, pattern tables and example texts are ASCII).
* UTF-8 byte lengths and byte slicing (`&text[..n]`, which panics when `n`
  is not a character boundary) are modelled explicitly via `charUtf8Len`.
* `HashSet`s of strings are modelled as duplicate-free `List String`
  (insertion order; the claims proved below only use cardinalities,
  membership and emptiness, which are order-independent).
* Display-only formatted strings (Rust `format!` with numeric `{:.2}`
  interpolation) are modelled by concatenating their textual parts without
  the numeric interpolation; no claim depends on these fields.
* `chrono` RFC-3339 date parsing is an external-library collaborator; it is
  modelled as an abstract parameter `pd : String → Option ℤ` returning a
  Unix timestamp in seconds, quantified over in every theorem.
-/

/-- Platform fee constant: `POLYMARKET_FEE = 2/100`. -/
def POLYMARKET_FEE : ℚ := 2/100

/-- Platform fee constant: `KALSHI_FEE = 1/100`. -/
def KALSHI_FEE : ℚ := 1/100

/-- Platform fee constant: `MANIFOLD_FEE = 2/100`. -/
def MANIFOLD_FEE : ℚ := 2/100

/-- `MIN_PROFIT_THRESHOLD = 5/100` ($0.05 floor used by `ArbitrageEngine::new`). -/
def MIN_PROFIT_THRESHOLD : ℚ := 5/100

/-- ASCII lower-casing of one character (model of `char::to_lowercase` on the
ASCII range). -/
def lowerChar (c : Char) : Char :=
  if 'A' ≤ c ∧ c ≤ 'Z' then Char.ofNat (c.toNat + 32) else c

/-- ASCII lower-casing of a string (model of `str::to_lowercase`). -/
def lowerAscii (s : String) : String :=
  ⟨s.data.map lowerChar⟩

/-- The `Market` record of `engine.rs`. -/
structure Market where
  id : String
  question : Option String
  title : Option String
  subtitle : Option String
  outcome_prices : List ℚ
  platform : String
  liquidity : ℚ
  close_date : Option String
  url : Option String
deriving DecidableEq

/-- The `Opportunity` record of `engine.rs`. -/
structure Opportunity where
  id : String
  opp_type : String
  description : String
  market_a : String
  market_b : String
  platform_a : String
  platform_b : String
  url_a : String
  url_b : String
  buy_yes_price : ℚ
  buy_no_price : ℚ
  total_cost : ℚ
  gross_profit : ℚ
  net_profit_after_fees : ℚ
  roi_percent : ℚ
  suggested_position : ℚ
  action : String
deriving DecidableEq

/-- The `ArbitrageEngine` configuration record. -/
structure ArbitrageEngine where
  min_roi : ℚ
  min_profit_threshold : ℚ
  total_capital : ℚ

/-- `ArbitrageEngine::new`: the configured profit threshold is raised to at
least `MIN_PROFIT_THRESHOLD` (`min_profit_threshold.max(MIN_PROFIT_THRESHOLD)`). -/
def ArbitrageEngine.new (min_roi min_profit_threshold total_capital : ℚ) :
    ArbitrageEngine :=
  { min_roi := min_roi
    min_profit_threshold := max min_profit_threshold MIN_PROFIT_THRESHOLD
    total_capital := total_capital }

/-- `get_platform_fee`: venue → fee lookup on the lower-cased venue name. -/
def get_platform_fee (platform : String) : ℚ :=
  if lowerAscii platform = "polymarket" then POLYMARKET_FEE
  else if lowerAscii platform = "kalshi" then KALSHI_FEE
  else if lowerAscii platform = "manifold" then MANIFOLD_FEE
  else 2/100

/-- `prices.get(i).copied().unwrap_or(0.0)`. -/
def priceAt (m : Market) (i : ℕ) : ℚ :=
  m.outcome_prices.getD i 0

/-- `calculate_position_size`: quarter-Kelly sizing with assumed win
probability 0.95, clamped by `min(·, total_capital*0.1).max(0.0)`. -/
def calculate_position_size (e : ArbitrageEngine) (net_profit cost : ℚ) : ℚ :=
  let edge := net_profit / cost
  let win_prob : ℚ := 19/20
  let loss_prob : ℚ := 1 - win_prob
  let kelly_fraction := edge * win_prob - loss_prob
  let conservative_kelly := kelly_fraction * 1/4
  if conservative_kelly > 0 then
    let max_position := e.total_capital * 1/10
    max (min (conservative_kelly * e.total_capital) max_position) 0
  else 0

/-- `check_single_platform` of `engine.rs` (single-venue YES+NO < 1 check). -/
def check_single_platform (e : ArbitrageEngine) (market : Market) :
    Option Opportunity :=
  if market.outcome_prices.length < 2 then none
  else
    let yes_price := priceAt market 0
    let no_price := priceAt market 1
    if yes_price < 1/100 ∨ no_price < 1/100 then none
    else
      let total_cost := yes_price + no_price
      if total_cost < 1 ∧ total_cost > 0 then
        let gross_profit := 1 - total_cost
        let fee := get_platform_fee market.platform
        let total_fees := total_cost * fee * 2
        let net_profit := gross_profit - total_fees
        if net_profit ≥ e.min_profit_threshold then
          let roi := net_profit / total_cost * 100
          if roi ≥ e.min_roi * 100 then
            some
              { id := "single_" ++ market.id
                opp_type := "Single-Platform"
                description := (market.question.or market.title).getD ""
                market_a := market.id
                market_b := market.id
                platform_a := market.platform
                platform_b := market.platform
                url_a := market.url.getD ""
                url_b := market.url.getD ""
                buy_yes_price := yes_price
                buy_no_price := no_price
                total_cost := total_cost
                gross_profit := gross_profit
                net_profit_after_fees := net_profit
                roi_percent := roi
                suggested_position := calculate_position_size e net_profit total_cost
                action := "Buy YES + NO on " ++ market.platform }
          else none
        else none
      else none

/-- `check_multi_condition_rebalancing` applied to one market (loop body of
`engine.rs` lines 495–547; the detector maps this over the market list).
Note: this check has no `< 1/100` price-reliability filter. -/
def check_multi_condition_one (e : ArbitrageEngine) (market : Market) :
    Option Opportunity :=
  if market.outcome_prices.length > 2 then
    let total := market.outcome_prices.sum
    if total < 1 ∧ total > 0 then
      let gross_profit := 1 - total
      let fee := get_platform_fee market.platform
      let total_fees := total * fee
      let net_profit := gross_profit - total_fees
      if net_profit ≥ e.min_profit_threshold then
        let roi := net_profit / total * 100
        some
          { id := "multi_" ++ market.id
            opp_type := "Multi-Condition"
            description := "outcomes sum to less than $1.00"
            market_a := market.id
            market_b := market.id
            platform_a := market.platform
            platform_b := market.platform
            url_a := market.url.getD ""
            url_b := market.url.getD ""
            buy_yes_price := total
            buy_no_price := 0
            total_cost := total
            gross_profit := gross_profit
            net_profit_after_fees := net_profit
            roi_percent := roi
            suggested_position := calculate_position_size e net_profit total
            action := "Buy ALL outcomes on " ++ market.platform }
      else none
    else none
  else none

/-- `check_multi_condition_rebalancing` over the whole market list. -/
def check_multi_condition_rebalancing (e : ArbitrageEngine)
    (markets : List Market) : List Opportunity :=
  markets.filterMap (check_multi_condition_one e)

/-- `calculate_cross_platform_spread` of `engine.rs`.  Note: its price guard
tests exact equality with `0.0`, not the `< 1/100` reliability bound. -/
def calculate_cross_platform_spread (e : ArbitrageEngine)
    (market_a market_b : Market) : Option Opportunity :=
  let yes_a := priceAt market_a 0
  let no_a := priceAt market_a 1
  let yes_b := priceAt market_b 0
  let no_b := priceAt market_b 1
  if yes_a = 0 ∨ no_a = 0 ∨ yes_b = 0 ∨ no_b = 0 then none
  else
    let cost_1 := yes_a + no_b
    let fee_a := get_platform_fee market_a.platform
    let fee_b := get_platform_fee market_b.platform
    let fees_1 := yes_a * fee_a + no_b * fee_b
    let net_profit_1 := 1 - cost_1 - fees_1
    let cost_2 := yes_b + no_a
    let fees_2 := yes_b * fee_b + no_a * fee_a
    let net_profit_2 := 1 - cost_2 - fees_2
    let best :=
      if net_profit_1 > net_profit_2 then
        (cost_1, net_profit_1, market_a, market_b, yes_a, no_b)
      else
        (cost_2, net_profit_2, market_b, market_a, yes_b, no_a)
    let best_cost := best.1
    let best_net_profit := best.2.1
    let buy_yes_market := best.2.2.1
    let buy_no_market := best.2.2.2.1
    let buy_yes_price := best.2.2.2.2.1
    let buy_no_price := best.2.2.2.2.2
    if best_net_profit ≥ e.min_profit_threshold ∧ best_cost > 0 then
      let roi := best_net_profit / best_cost * 100
      if roi ≥ e.min_roi * 100 then
        let gross_profit := 1 - best_cost
        some
          { id := "cross_" ++ buy_yes_market.id ++ "_" ++ buy_no_market.id
            opp_type := "Cross-Platform"
            description := (buy_yes_market.question.or buy_yes_market.title).getD ""
            market_a := buy_yes_market.id
            market_b := buy_no_market.id
            platform_a := buy_yes_market.platform
            platform_b := buy_no_market.platform
            url_a := buy_yes_market.url.getD ""
            url_b := buy_no_market.url.getD ""
            buy_yes_price := buy_yes_price
            buy_no_price := buy_no_price
            total_cost := best_cost
            gross_profit := gross_profit
            net_profit_after_fees := best_net_profit
            roi_percent := roi
            suggested_position := calculate_position_size e best_net_profit best_cost
            action := "Buy YES on " ++ buy_yes_market.platform ++
              " + Buy NO on " ++ buy_no_market.platform }
      else none
    else none

/-- `List.isPrefixOf`-style check used for substring containment. -/
def listStartsWith : List Char → List Char → Bool
  | _, [] => true
  | [], _ :: _ => false
  | c :: cs, p :: ps => c = p && listStartsWith cs ps

/-- Substring containment on character lists. -/
def listContainsSub : List Char → List Char → Bool
  | text, pat =>
    match text with
    | [] => pat.isEmpty
    | _ :: rest => listStartsWith text pat || listContainsSub rest pat

/-- Model of Rust `str::contains` (substring containment). -/
def containsSub (text pat : String) : Bool :=
  listContainsSub text.data pat.data

/-- Number of bytes of the UTF-8 encoding of one character. -/
def charUtf8Len (c : Char) : ℕ :=
  if c.toNat < 128 then 1
  else if c.toNat < 2048 then 2
  else if c.toNat < 65536 then 3
  else 4

/-- Rust `str::len`: length in UTF-8 bytes. -/
def utf8ByteLength (s : String) : ℕ :=
  (s.data.map charUtf8Len).sum

/-- Longest character prefix whose UTF-8 encoding fits in `n` bytes. -/
def utf8TakeBytesAux : List Char → ℕ → List Char
  | [], _ => []
  | c :: cs, n =>
    if charUtf8Len c ≤ n then c :: utf8TakeBytesAux cs (n - charUtf8Len c)
    else []

/-- String of the longest character prefix fitting in `n` UTF-8 bytes. -/
def utf8TakeBytes (s : String) (n : ℕ) : String :=
  ⟨utf8TakeBytesAux s.data n⟩

/-- Whether byte offset `n` is a character boundary of `s`
(Rust `str::is_char_boundary`, for `n ≤ len`). -/
def is_char_boundary (s : String) (n : ℕ) : Bool :=
  utf8ByteLength (utf8TakeBytes s n) = n

/-- `truncate_text` of `engine.rs`: `&text[..max_len]` followed by "...".
The Rust byte-range slice `&text[..max_len]` PANICS when `max_len` is not a
character boundary; this total model takes the longest prefix fitting in
`max_len` bytes, and `truncate_text_panics` records exactly when the real
code would panic instead. -/
def truncate_text (text : String) (max_len : ℕ) : String :=
  if utf8ByteLength text > max_len then utf8TakeBytes text max_len ++ "..."
  else text

/-- `truncate_text text max_len` panics in the Rust source iff the text is
longer than `max_len` bytes and byte `max_len` is not a character boundary. -/
def truncate_text_panics (text : String) (max_len : ℕ) : Bool :=
  utf8ByteLength text > max_len && !is_char_boundary text max_len

/-- `get_market_text`: `format!("{} {} {}", question, title, subtitle)` with
missing fields defaulted to the empty string. -/
def get_market_text (market : Market) : String :=
  market.question.getD "" ++ " " ++ market.title.getD "" ++ " " ++
    market.subtitle.getD ""

/-- The fixed `IMPLICATION_PATTERNS` table of `engine.rs`
(`(keyword_a, keyword_b)`: a market containing A implies the market
containing B). -/
def IMPLICATION_PATTERNS : List (String × String) :=
  [("trump win", "republican win"),
   ("trump wins", "republicans win"),
   ("biden win", "democrat win"),
   ("harris win", "democrat win"),
   ("landslide", "win"),
   ("win by 5+", "win"),
   ("win by 10+", "win by 5+"),
   ("bitcoin 200k", "bitcoin 150k"),
   ("bitcoin 150k", "bitcoin 100k"),
   ("bitcoin 100k", "bitcoin 75k"),
   ("ethereum 10k", "ethereum 5k"),
   ("btc 200k", "btc 100k"),
   ("btc 100k", "btc 75k"),
   ("eth 10k", "eth 5k"),
   ("solana 500", "solana 300"),
   ("solana 300", "solana 200"),
   ("recession 2025", "gdp negative"),
   ("fed cut", "rate decrease"),
   ("fed cuts 3", "fed cuts 2"),
   ("fed cuts 2", "fed cut"),
   ("inflation below 2", "inflation below 3"),
   ("unemployment above 5", "unemployment above 4"),
   ("sweep", "win series"),
   ("win in 4", "win series"),
   ("win in 5", "win series"),
   ("win finals", "reach finals"),
   ("win championship", "reach playoffs"),
   ("super bowl win", "reach super bowl"),
   ("win mvp", "reach playoffs"),
   ("agi by 2026", "agi by 2030"),
   ("agi by 2027", "agi by 2030"),
   ("tesla 500", "tesla 400"),
   ("tesla 400", "tesla 300"),
   ("nvidia 200", "nvidia 150"),
   ("apple 250", "apple 200"),
   ("before march", "in 2025"),
   ("before june", "in 2025"),
   ("by q1", "in 2025"),
   ("by q2", "by end of year")]

/-- The fixed subject-keyword list used to group markets for the subset
check in `detect_dependencies`. -/
def dependencySubjects : List String :=
  ["trump", "biden", "harris", "republican", "democrat",
   "bitcoin", "btc", "ethereum", "eth", "solana", "sol", "xrp", "doge",
   "lakers", "celtics", "warriors", "chiefs", "eagles", "yankees",
   "lebron", "curry", "mahomes", "messi", "ronaldo",
   "tesla", "nvidia", "apple", "google", "openai", "agi",
   "fed", "inflation", "recession", "gdp", "unemployment"]

/-- The fixed `subset_indicators` table of `is_subset_market`. -/
def subset_indicators : List (String × String) :=
  [("by 5+", "win"),
   ("by 10+", "win"),
   ("landslide", "win"),
   ("sweep", "win"),
   ("before march", "in 2025"),
   ("by june", "in 2025"),
   ("200k", "100k"),
   ("150k", "100k"),
   ("10k", "5k"),
   ("500", "300"),
   ("win in 4", "win series"),
   ("win in 5", "win series"),
   ("win finals", "reach finals"),
   ("cuts 3", "cut"),
   ("cuts 4", "cuts 2")]

/-- `is_subset_market`: text A is a strict specialisation of text B. -/
def is_subset_market (text_a text_b : String) : Bool :=
  subset_indicators.any fun sg =>
    containsSub text_a sg.1 && containsSub text_b sg.2 &&
      !containsSub text_b sg.1

/-- The transient `MarketDependency` record of `engine.rs`. -/
structure MarketDependency where
  implied_market : ℕ
  implying_market : ℕ
  dependency_type : String
deriving DecidableEq

/-- `detect_dependencies` of `engine.rs`.  The keyword index over pattern
indices is modelled directly as a filter over `List.range`; the Rust code
iterates its `subject_groups` `HashMap` in arbitrary order while this model
iterates subjects in table order (only the order of the emitted
dependencies differs, never the collection). -/
def detect_dependencies (markets : List Market) : List MarketDependency :=
  let texts := markets.map fun m => lowerAscii (get_market_text m)
  let idxs := List.range texts.length
  let patternDeps :=
    (IMPLICATION_PATTERNS.map fun pq =>
      ((idxs.filter fun i => containsSub (texts.getD i "") pq.1).map fun i =>
        (idxs.filter fun j => containsSub (texts.getD j "") pq.2).filterMap
          fun j =>
            if i ≠ j then
              some { implied_market := j, implying_market := i
                     dependency_type := "implies" }
            else none).flatten).flatten
  let subjectDeps :=
    (dependencySubjects.map fun subj =>
      let group := idxs.filter fun i => containsSub (texts.getD i "") subj
      (group.map fun i =>
        group.filterMap fun j =>
          if i ≠ j ∧
              is_subset_market (texts.getD i "") (texts.getD j "") = true then
            some { implied_market := j, implying_market := i
                   dependency_type := "subset" }
          else none).flatten).flatten
  patternDeps ++ subjectDeps

/-- The per-dependency body of `check_combinatorial_arbitrage`
(`engine.rs` lines 302–371), applied to the implying and implied markets of
one detected dependency. -/
def comb_pair_opportunity (e : ArbitrageEngine) (implying implied : Market) :
    Option Opportunity :=
  let implying_yes := priceAt implying 0
  let implied_yes := priceAt implied 0
  if implying_yes < 1/100 ∨ implied_yes < 1/100 then none
  else if implying_yes > implied_yes + 2/100 then
    let price_gap := implying_yes - implied_yes
    let implying_no := priceAt implying 1
    let total_cost := implying_no + implied_yes
    let fee_implying := get_platform_fee implying.platform
    let fee_implied := get_platform_fee implied.platform
    let total_fees := implying_no * fee_implying + implied_yes * fee_implied
    let gross_profit := price_gap
    let net_profit := gross_profit - total_fees
    if net_profit ≥ e.min_profit_threshold then
      let roi := net_profit / total_cost * 100
      let implying_text := get_market_text implying
      let implied_text := get_market_text implied
      some
        { id := "comb_" ++ implying.id ++ "_" ++ implied.id
          opp_type := "Combinatorial"
          description := "LOGICAL: " ++ truncate_text implying_text 25 ++
            " implies " ++ truncate_text implied_text 25 ++
            " but priced higher"
          market_a := implying.id
          market_b := implied.id
          platform_a := implying.platform
          platform_b := implied.platform
          url_a := implying.url.getD ""
          url_b := implied.url.getD ""
          buy_yes_price := implied_yes
          buy_no_price := implying_no
          total_cost := total_cost
          gross_profit := gross_profit
          net_profit_after_fees := net_profit
          roi_percent := roi
          suggested_position := calculate_position_size e net_profit total_cost
          action := "Buy NO on " ++ truncate_text implying_text 15 ++
            " + Buy YES on " ++ truncate_text implied_text 15 }
    else none
  else none

/-- `check_combinatorial_arbitrage` of `engine.rs`: apply the per-dependency
body to every dependency found by `detect_dependencies`.  (The Rust indexing
`markets[dep.implying_market]` is total here because every emitted index is
drawn from `List.range markets.length`.) -/
def check_combinatorial_arbitrage (e : ArbitrageEngine)
    (markets : List Market) : List Opportunity :=
  (detect_dependencies markets).filterMap fun dep =>
    match markets.get? dep.implying_market, markets.get? dep.implied_market with
    | some implying, some implied => comb_pair_opportunity e implying implied
    | _, _ => none

/-- The `CrossMatch` record of `cross_matcher.rs` (`shared_entities`, a Rust
`HashSet` collected into a `Vec`, is modelled as a duplicate-free list). -/
structure CrossMatch where
  platform_a : String
  platform_b : String
  id_a : String
  id_b : String
  question_a : String
  question_b : String
  yes_price_a : ℚ
  yes_price_b : ℚ
  price_diff : ℚ
  confidence : ℚ
  category : String
  shared_entities : List String
  url_a : String
  url_b : String
deriving DecidableEq

/-- `NBA_TEAMS` of `cross_matcher.rs`. -/
def NBA_TEAMS : List String :=
  ["celtics", "nets", "knicks", "76ers", "raptors",
   "bulls", "cavaliers", "pistons", "pacers", "bucks",
   "hawks", "hornets", "heat", "magic", "wizards",
   "nuggets", "timberwolves", "thunder", "trail blazers", "jazz",
   "warriors", "clippers", "lakers", "suns", "kings",
   "mavericks", "rockets", "grizzlies", "pelicans", "spurs"]

/-- `NFL_TEAMS` of `cross_matcher.rs`. -/
def NFL_TEAMS : List String :=
  ["patriots", "bills", "dolphins", "jets",
   "steelers", "ravens", "bengals", "browns",
   "texans", "colts", "jaguars", "titans",
   "chiefs", "raiders", "chargers", "broncos",
   "eagles", "commanders", "giants", "cowboys",
   "packers", "bears", "vikings", "lions",
   "buccaneers", "saints", "falcons", "panthers",
   "49ers", "seahawks", "rams", "cardinals"]

/-- `SPORTS_CATEGORIES` of `cross_matcher.rs`. -/
def SPORTS_CATEGORIES : List String := ["nba", "nfl", "soccer", "mlb"]

/-- Regex word character (`\w`); the matcher texts are ASCII, where the
`regex` crate and this definition agree. -/
def isWordChar (c : Char) : Bool := c.isAlphanum || c = '_'

/-- Whether pattern `pat` occurs in `text` at position `i` with regex word
boundaries (`\b`) on both sides. -/
def wordBoundedAt (text pat : List Char) (i : ℕ) : Bool :=
  listStartsWith (text.drop i) pat &&
    (i = 0 || !isWordChar (text.getD (i - 1) ' ')) &&
    !isWordChar (text.getD (i + pat.length) ' ')

/-- Model of a `(?i)\b…\b` regex test on already-lower-cased text: the
pattern occurs somewhere with word boundaries on both sides. -/
def containsWord (text pat : String) : Bool :=
  (List.range (text.data.length + 1)).any fun i =>
    wordBoundedAt text.data pat.data i

/-- The `entity_patterns` table of `CrossMatcher::new`: each named pattern
is a word-bounded alternation of phrases (e.g. `(?i)\b(bitcoin|btc)\b`);
`nba finals?` is the two-phrase alternation of its optional-`s` forms. -/
def entity_patterns : List (String × List String) :=
  [("trump", ["trump"]),
   ("biden", ["biden"]),
   ("harris", ["harris"]),
   ("desantis", ["desantis"]),
   ("vance", ["vance"]),
   ("newsom", ["newsom"]),
   ("haley", ["haley"]),
   ("obama", ["obama"]),
   ("bitcoin", ["bitcoin", "btc"]),
   ("ethereum", ["ethereum", "eth"]),
   ("solana", ["solana", "sol"]),
   ("fed", ["fed", "federal reserve", "fomc"]),
   ("inflation", ["inflation"]),
   ("recession", ["recession"]),
   ("super_bowl", ["super bowl"]),
   ("nba_finals", ["nba finals", "nba final"]),
   ("world_series", ["world series"]),
   ("world_cup", ["world cup"]),
   ("champions_league", ["champions league"])]

/-- The `extra_terms` list of `CrossMatcher::new` (plain substring tests). -/
def extra_terms : List String :=
  ["president", "election", "win", "price", "champion", "finals", "nominee"]

/-- The ordered `categories` table of `CrossMatcher::new`. -/
def matcherCategories : List (String × List String) :=
  [("us_politics", ["trump", "biden", "harris", "desantis", "president",
      "election", "congress", "senate", "republican", "democrat",
      "white house"]),
   ("crypto", ["bitcoin", "ethereum", "btc", "eth", "crypto", "solana"]),
   ("economics", ["fed", "inflation", "recession", "gdp", "interest rate",
      "unemployment"]),
   ("nba", ["nba", "basketball", "lakers", "celtics", "warriors", "finals"]),
   ("nfl", ["nfl", "super bowl", "football", "patriots", "chiefs"]),
   ("soccer", ["world cup", "fifa", "soccer", "premier league",
      "champions league"]),
   ("mlb", ["mlb", "baseball", "world series"]),
   ("ai_tech", ["openai", "chatgpt", "google", "apple", "tesla", "nvidia",
      "ai"])]

/-- The `ProcessedMarket` record of `cross_matcher.rs`. -/
structure ProcessedMarket where
  text : String
  entities : List String
  teams : List String
  category : Option String

/-- `get_question` of `cross_matcher.rs`: a non-empty `question`, else
`title - subtitle`, else `title`, else the empty string. -/
def get_question (market : Market) : String :=
  match market.question with
  | some q =>
    if ¬q.isEmpty then q
    else
      match market.title with
      | some t =>
        match market.subtitle with
        | some s => t ++ " - " ++ s
        | none => t
      | none => ""
  | none =>
    match market.title with
    | some t =>
      match market.subtitle with
      | some s => t ++ " - " ++ s
      | none => t
    | none => ""

/-- `classify`: the first category whose keyword list has at least two
substring hits. -/
def classify (text : String) : Option String :=
  (matcherCategories.find? fun ck =>
    2 ≤ (ck.2.filter fun kw => containsSub text kw).length).map (·.1)

/-- `extract_years` helper: the four characters starting at position `i`. -/
def yearStrAt (cs : List Char) (i : ℕ) : String :=
  ⟨[cs.getD i ' ', cs.getD (i + 1) ' ', cs.getD (i + 2) ' ',
    cs.getD (i + 3) ' ']⟩

/-- One word-bounded match of `year_re = \b(202[0-9]|203[0-9])\b` at `i`. -/
def yearMatchAt (cs : List Char) (i : ℕ) : Bool :=
  cs.getD i ' ' = '2' && cs.getD (i + 1) ' ' = '0' &&
    (cs.getD (i + 2) ' ' = '2' || cs.getD (i + 2) ' ' = '3') &&
    (cs.getD (i + 3) ' ').isDigit &&
    (i = 0 || !isWordChar (cs.getD (i - 1) ' ')) &&
    !isWordChar (cs.getD (i + 4) ' ')

/-- One word-bounded match of `season_re = \b(202[0-9])-(202[0-9])\b` at
`i`; it contributes the years at `i` and at `i+5`. -/
def seasonMatchAt (cs : List Char) (i : ℕ) : Bool :=
  cs.getD i ' ' = '2' && cs.getD (i + 1) ' ' = '0' &&
    cs.getD (i + 2) ' ' = '2' && (cs.getD (i + 3) ' ').isDigit &&
    cs.getD (i + 4) ' ' = '-' &&
    cs.getD (i + 5) ' ' = '2' && cs.getD (i + 6) ' ' = '0' &&
    cs.getD (i + 7) ' ' = '2' && (cs.getD (i + 8) ' ').isDigit &&
    (i = 0 || !isWordChar (cs.getD (i - 1) ' ')) &&
    !isWordChar (cs.getD (i + 9) ' ')

/-- `HashSet::insert` on a duplicate-free list. -/
def insertNew (x : String) (l : List String) : List String :=
  if x ∈ l then l else l ++ [x]

/-- `extract_years` of `cross_matcher.rs`: all word-bounded 4-digit years
2020–2039 plus both endpoints of `YYYY-YYYY` season ranges, as a set. -/
def extract_years (text : String) : List String :=
  let cs := text.data
  let fromYears :=
    (List.range (cs.length + 1)).foldl
      (fun acc i => if yearMatchAt cs i then insertNew (yearStrAt cs i) acc
        else acc) []
  (List.range (cs.length + 1)).foldl
    (fun acc i =>
      if seasonMatchAt cs i then
        insertNew (yearStrAt cs (i + 5)) (insertNew (yearStrAt cs i) acc)
      else acc) fromYears

/-- `process` of `cross_matcher.rs`: entity, team and category extraction
over the lower-cased question text. -/
def process (market : Market) : ProcessedMarket :=
  let text := lowerAscii (get_question market)
  { text := text
    entities :=
      (entity_patterns.filter fun p => p.2.any fun ph => containsWord text ph).map
          (·.1) ++
        extra_terms.filter fun term => containsSub text term
    teams := (NBA_TEAMS ++ NFL_TEAMS).filter fun team => containsSub text team
    category := classify text }

/-- Intersection of string lists (Rust `HashSet::intersection`), keeping
the order of the first list. -/
def listInter (xs ys : List String) : List String :=
  xs.filter (· ∈ ys)

/-- Rust `f64::round` on a nonnegative rational (half away from zero). -/
def roundHalfUp (q : ℚ) : ℚ := (⌊q * 10000 + 1 / 2⌋ : ℤ) / 10000

/-- Byte-truncation of a question to 100 bytes (`q[..100]`; as with
`truncate_text`, the Rust slice panics off a character boundary and this
total model takes the longest fitting prefix). -/
def questionTrunc (q : String) : String :=
  if utf8ByteLength q > 100 then utf8TakeBytes q 100 else q

/-- The per-candidate body of `match_pair` (`cross_matcher.rs` lines
156–248) for one market of venue A and one of venue B.  `pd` abstracts the
`chrono` RFC-3339 parser (`String → Option` Unix seconds); `continue`
becomes `none`. -/
def matchCandidateCore (pd : String → Option ℤ) (raw_a raw_b : Market)
    (cat_a : String) : Option CrossMatch :=
  let proc_a := process raw_a
  let proc_b := process raw_b
  if proc_b.category = some cat_a then
      let shared := listInter proc_a.entities proc_b.entities
      if shared.length < 2 then none
      else
        let years_a := extract_years proc_a.text
        let years_b := extract_years proc_b.text
        if years_a ≠ [] ∧ years_b ≠ [] ∧ listInter years_a years_b = [] then
          none
        else
          let dateReject :=
            match raw_a.close_date, raw_b.close_date with
            | some cd_a, some cd_b =>
              match pd cd_a, pd cd_b with
              | some da, some db =>
                decide (90 < ((da - db).tdiv 86400).natAbs)
              | _, _ => false
            | _, _ => false
          if dateReject = true then none
          else
            let is_sports := cat_a ∈ SPORTS_CATEGORIES
            if is_sports ∧ (proc_a.teams = [] ∨ proc_b.teams = []) then none
            else if is_sports ∧ listInter proc_a.teams proc_b.teams = [] then
              none
            else
              let confidence0 := (shared.length : ℚ) * (2 / 10) +
                (if years_a ≠ [] ∧ years_b ≠ [] ∧
                    listInter years_a years_b ≠ [] then (3 : ℚ) / 10 else 0) +
                (if is_sports then
                  ((listInter proc_a.teams proc_b.teams).length : ℚ) * (3 / 10)
                 else 0)
              let confidence := min confidence0 1
              if confidence < 1 / 2 then none
              else
                let yes_a := priceAt raw_a 0
                let yes_b := priceAt raw_b 0
                let price_diff := |yes_a - yes_b|
                some
                  { platform_a := raw_a.platform
                    platform_b := raw_b.platform
                    id_a := raw_a.id
                    id_b := raw_b.id
                    question_a := questionTrunc (get_question raw_a)
                    question_b := questionTrunc (get_question raw_b)
                    yes_price_a := yes_a
                    yes_price_b := yes_b
                    price_diff := roundHalfUp price_diff
                    confidence := confidence
                    category := cat_a
                    shared_entities := shared
                    url_a := raw_a.url.getD ""
                    url_b := raw_b.url.getD "" }
  else none

/-- The per-candidate body of `match_pair`: dispatch on venue-A's category
(`continue` when it has none), then run the gate chain of
`matchCandidateCore`. -/
def matchCandidate (pd : String → Option ℤ) (raw_a raw_b : Market) :
    Option CrossMatch :=
  match (process raw_a).category with
  | none => none
  | some cat_a => matchCandidateCore pd raw_a raw_b cat_a

/-- Unfolding equation for `matchCandidate` when venue-A has a category. -/
theorem matchCandidate_eq_core {pd : String → Option ℤ} {raw_a : Market}
    (raw_b : Market) {cat_a : String}
    (h : (process raw_a).category = some cat_a) :
    matchCandidate pd raw_a raw_b = matchCandidateCore pd raw_a raw_b cat_a := by
  unfold matchCandidate
  rw [h]

/-- Unfolding equation for `matchCandidate` when venue-A has no category. -/
theorem matchCandidate_eq_none {pd : String → Option ℤ} {raw_a : Market}
    (raw_b : Market) (h : (process raw_a).category = none) :
    matchCandidate pd raw_a raw_b = none := by
  unfold matchCandidate
  rw [h]

/-- The final `retain`-with-`seen`-set deduplication of `match_pair`:
keep the first occurrence of every `(id_a, id_b)` key. -/
def dedupKeys (seen : List (String × String)) :
    List CrossMatch → List CrossMatch
  | [] => []
  | m :: ms =>
    if (m.id_a, m.id_b) ∈ seen then dedupKeys seen ms
    else m :: dedupKeys ((m.id_a, m.id_b) :: seen) ms

/-- `match_pair` of `cross_matcher.rs`: every venue-A × venue-B candidate in
order (the category-bucket index only prunes category mismatches, which
`matchCandidate` re-checks), then deduplication by `(id_a, id_b)`. -/
def match_pair (pd : String → Option ℤ) (markets_a markets_b : List Market) :
    List CrossMatch :=
  dedupKeys []
    ((markets_a.map fun a => markets_b.filterMap fun b => matchCandidate pd a b).flatten)

/-- Descending-confidence ordering used by the final sort of `match_all`. -/
def confGE (x y : CrossMatch) : Prop := y.confidence ≤ x.confidence

instance : DecidableRel confGE := fun x y =>
  inferInstanceAs (Decidable (y.confidence ≤ x.confidence))

instance : IsTotal CrossMatch confGE :=
  ⟨fun x y => le_total y.confidence x.confidence⟩

instance : IsTrans CrossMatch confGE :=
  ⟨fun _ _ _ h1 h2 => le_trans h2 h1⟩

/-- The unordered venue pairs `(i, j)`, `i < j`, in list order (Rust
iterates the keys of a `HashMap`, whose order is arbitrary; the group list
order is this model's stand-in for that arbitrary key order). -/
def upperPairs : List α → List (α × α)
  | [] => []
  | x :: xs => (xs.map fun y => (x, y)) ++ upperPairs xs

/-- `match_all` of `cross_matcher.rs`: concatenate `match_pair` over all
venue pairs, then stable-sort by confidence descending. -/
def match_all (pd : String → Option ℤ) (groups : List (String × List Market)) :
    List CrossMatch :=
  ((upperPairs groups).map fun gp => match_pair pd gp.1.2 gp.2.2).flatten
    |>.insertionSort confGE

/-- C10: `ArbitrageEngine::new` silently raises any configured profit
threshold below $0.05 to $0.05: the effective `min_profit_threshold` is
`max t 0.05`, and an engine configured below the floor is identical (hence
indistinguishable to every detector) to one configured at the floor. -/
theorem new_clamps_min_profit_threshold (r t c : ℚ) :
    (ArbitrageEngine.new r t c).min_profit_threshold = max t (5/100) ∧
    (t < 5/100 → ArbitrageEngine.new r t c = ArbitrageEngine.new r (5/100) c) := by
  constructor
  · rfl
  · intro ht
    unfold ArbitrageEngine.new MIN_PROFIT_THRESHOLD
    rw [max_eq_right ht.le, max_self]

/-- C10 witness: a threshold configured at $0.03 yields the same engine as
one configured at $0.05. -/
theorem new_clamps_min_profit_threshold_witness :
    ArbitrageEngine.new 1 (3/100) 1000 = ArbitrageEngine.new 1 (5/100) 1000 :=
  (new_clamps_min_profit_threshold 1 (3/100) 1000).2 (by norm_num)

/-- C9: for positive cost and nonnegative capital, the position sizer
returns the quarter-Kelly amount `(edge*0.95 - 0.05) * 0.25 * capital`
clamped to `[0, capital*0.1]`; it returns 0 when the quarter-Kelly fraction
is non-positive, and never exceeds 10% of capital. -/
theorem position_sizer_spec (e : ArbitrageEngine) (net_profit cost : ℚ)
    (hcap : 0 ≤ e.total_capital) (hc : 0 < cost) :
    calculate_position_size e net_profit cost =
      max (min ((net_profit / cost * (19/20) - 1/20) * (1/4) * e.total_capital)
        (e.total_capital * (1/10))) 0 ∧
    ((net_profit / cost * (19/20) - 1/20) * (1/4) ≤ 0 →
      calculate_position_size e net_profit cost = 0) ∧
    calculate_position_size e net_profit cost ≤ e.total_capital * (1/10) := by
  have hc10 : (0 : ℚ) ≤ e.total_capital * (1/10) := by positivity
  simp only [calculate_position_size]
  rw [show (1 : ℚ) - 19/20 = 1/20 from by norm_num]
  rw [show ∀ x : ℚ, x * 1 / 4 = x * (1/4) from fun x => by ring]
  rw [show e.total_capital * 1 / 10 = e.total_capital * (1/10) from by ring]
  set k := net_profit / cost * (19/20) - 1/20 with hk
  split_ifs with h
  · refine ⟨rfl, ?_, ?_⟩
    · intro hnp
      exfalso; linarith
    · exact max_le (le_trans (min_le_right _ _) le_rfl) hc10
  · push_neg at h
    refine ⟨?_, fun _ => rfl, hc10⟩
    have hkc : k * (1/4) * e.total_capital ≤ 0 :=
      mul_nonpos_of_nonpos_of_nonneg (by linarith) hcap
    rw [eq_comm, max_eq_right (le_trans (min_le_left _ _) hkc)]

/-- C9 witness: capital 1000, cost 1, net profit 1 gives the clamped
quarter-Kelly size, which is 0.1*1000 = 100 here. -/
theorem position_sizer_spec_witness :
    calculate_position_size ⟨0, 5/100, 1000⟩ 1 1 =
      max (min ((1 / 1 * (19/20) - 1/20) * (1/4) * 1000) (1000 * (1/10))) 0 :=
  (position_sizer_spec ⟨0, 5/100, 1000⟩ 1 1 (by norm_num) (by norm_num)).1

/-- C1: for a market with at least two outcome prices, both at least 0.01,
the single-venue detector: (a) when `yes+no < 1`, emits an Opportunity iff
`net ≥ min_profit_threshold` and `net/(yes+no)*100 ≥ min_roi_percent`
(the engine stores the ROI bound as the fraction `min_roi`, so
`min_roi_percent = min_roi * 100`), with `net_profit_after_fees` exactly
`(1-(yes+no)) - (yes+no)*fee*2` for the venue fee; (b) when `yes+no ≥ 1`,
emits nothing. -/
theorem single_platform_detector_spec (e : ArbitrageEngine) (m : Market)
    (yes no : ℚ) (hlen : 2 ≤ m.outcome_prices.length)
    (h0 : priceAt m 0 = yes) (h1 : priceAt m 1 = no)
    (hy : 1/100 ≤ yes) (hn : 1/100 ≤ no) :
    (yes + no < 1 →
      ((check_single_platform e m).isSome = true ↔
        e.min_profit_threshold ≤
          1 - (yes + no) - (yes + no) * get_platform_fee m.platform * 2 ∧
        e.min_roi * 100 ≤
          (1 - (yes + no) - (yes + no) * get_platform_fee m.platform * 2) /
            (yes + no) * 100) ∧
      (∀ o, check_single_platform e m = some o →
        o.net_profit_after_fees =
          1 - (yes + no) - (yes + no) * get_platform_fee m.platform * 2)) ∧
    (1 ≤ yes + no → check_single_platform e m = none) := by
  have hlen' : ¬ m.outcome_prices.length < 2 := by omega
  have hgate : ¬ (yes < 1/100 ∨ no < 1/100) := by
    push_neg; exact ⟨hy, hn⟩
  have h001 : (0 : ℚ) < 1/100 := by norm_num
  have hpos : yes + no > 0 := by linarith
  constructor
  · intro hlt
    constructor
    · simp only [check_single_platform, h0, h1]
      rw [if_neg hlen', if_neg hgate, if_pos (And.intro hlt hpos)]
      split_ifs with h2 h3
      · exact iff_of_true rfl ⟨h2, h3⟩
      · exact iff_of_false (by simp) fun hc => h3 hc.2
      · exact iff_of_false (by simp) fun hc => h2 hc.1
    · intro o ho
      simp only [check_single_platform, h0, h1] at ho
      rw [if_neg hlen', if_neg hgate, if_pos (And.intro hlt hpos)] at ho
      split_ifs at ho with h2 h3
      · cases ho
        rfl
  · intro hge
    have hno : ¬ (yes + no < 1 ∧ yes + no > 0) := fun hc => absurd hge (not_le.mpr hc.1)
    simp only [check_single_platform, h0, h1]
    rw [if_neg hlen', if_neg hgate, if_neg hno]

/-- Concrete market used as the C1 witness: Kalshi, prices [0.40, 0.50]. -/
def singleWitnessMarket : Market :=
  { id := "s1", question := none, title := none, subtitle := none
    outcome_prices := [2/5, 1/2], platform := "Kalshi", liquidity := 0
    close_date := none, url := none }

/-- C1 witness: on Kalshi prices [0.40, 0.50] with thresholds ($0.05, 0%),
net = 0.1 - 0.9*0.01*2 = 0.082 clears both gates, so the detector emits. -/
theorem single_platform_detector_spec_witness :
    (check_single_platform (ArbitrageEngine.new 0 (5/100) 1000)
      singleWitnessMarket).isSome = true := by
  have hfee : get_platform_fee singleWitnessMarket.platform = 1/100 := rfl
  have h := (single_platform_detector_spec (ArbitrageEngine.new 0 (5/100) 1000)
    singleWitnessMarket (2/5) (1/2) (by norm_num [singleWitnessMarket])
    rfl rfl (by norm_num) (by norm_num)).1 (by norm_num)
  exact h.1.mpr (by
    rw [hfee]
    constructor
    · show (ArbitrageEngine.new 0 (5/100) 1000).min_profit_threshold ≤ _
      rw [show (ArbitrageEngine.new 0 (5/100) 1000).min_profit_threshold =
        max (5/100) (5/100) from rfl]
      norm_num
    · norm_num [ArbitrageEngine.new])

/-- Concrete market of the C2 spec example: Kalshi, prices [0.40, 0.55]. -/
def kalshiExampleMarket : Market :=
  { id := "kx", question := none, title := none, subtitle := none
    outcome_prices := [2/5, 11/20], platform := "Kalshi", liquidity := 0
    close_date := none, url := none }

/-- C2 counterexample: contrary to the claim, an engine CONFIGURED with
`min_profit_threshold = 0.03` through `ArbitrageEngine::new` still rejects
the Kalshi [0.40, 0.55] example (net 0.031), because `new` raises the
threshold to $0.05. -/
theorem kalshi_example_new003_rejects :
    check_single_platform (ArbitrageEngine.new 0 (3/100) 1000)
      kalshiExampleMarket = none := by
  have hfee : get_platform_fee "Kalshi" = 1/100 := rfl
  simp only [check_single_platform, kalshiExampleMarket, priceAt,
    ArbitrageEngine.new, MIN_PROFIT_THRESHOLD]
  norm_num [hfee, max_def]

/-- C2 amended: the Kalshi [0.40, 0.55] example (total 0.95, net 0.031) is
rejected by any engine built by `ArbitrageEngine::new` with a configured
threshold of $0.03 (or $0.05) — `new` clamps to the $0.05 floor — while a
detector whose `min_profit_threshold` FIELD is 0.03 (bypassing `new`)
accepts it with `roi_percent = 0.031/0.95*100`. -/
theorem kalshi_example_amended (r c : ℚ) :
    check_single_platform (ArbitrageEngine.new r (3/100) c)
        kalshiExampleMarket = none ∧
    check_single_platform (ArbitrageEngine.new r (5/100) c)
        kalshiExampleMarket = none ∧
    (check_single_platform ⟨0, 3/100, c⟩ kalshiExampleMarket).map
        (fun o => o.net_profit_after_fees) = some (31/1000) ∧
    (check_single_platform ⟨0, 3/100, c⟩ kalshiExampleMarket).map
        (fun o => o.roi_percent) = some (31/1000 / (19/20) * 100) := by
  have hfee : get_platform_fee "Kalshi" = 1/100 := rfl
  refine ⟨?_, ?_, ?_, ?_⟩ <;>
    · simp only [check_single_platform, kalshiExampleMarket, priceAt,
        ArbitrageEngine.new, MIN_PROFIT_THRESHOLD]
      norm_num [hfee, max_def]

/-- C3: for a dependency pair with both YES prices ≥ 0.01, the
combinatorial detector emits iff the implying YES exceeds the implied YES
by more than the 0.02 margin and `net ≥ min_profit_threshold`, with
`cost = implying.NO + implied.YES`, `gross = pa - pb`,
`fees = implying.NO*fee(implying) + implied.YES*fee(implied)`,
`net = gross - fees` and `roi_percent = net/cost*100`; `min_roi` plays no
role (the iff holds for every engine, whatever its `min_roi`). -/
theorem comb_detector_spec (e : ArbitrageEngine) (A B : Market) (pa pb : ℚ)
    (h0 : priceAt A 0 = pa) (h1 : priceAt B 0 = pb)
    (hpa : 1/100 ≤ pa) (hpb : 1/100 ≤ pb) :
    ((comb_pair_opportunity e A B).isSome = true ↔
      pb + 2/100 < pa ∧
      e.min_profit_threshold ≤ (pa - pb) -
        (priceAt A 1 * get_platform_fee A.platform +
          pb * get_platform_fee B.platform)) ∧
    (∀ o, comb_pair_opportunity e A B = some o →
      o.gross_profit = pa - pb ∧
      o.total_cost = priceAt A 1 + pb ∧
      o.net_profit_after_fees = (pa - pb) -
        (priceAt A 1 * get_platform_fee A.platform +
          pb * get_platform_fee B.platform) ∧
      o.roi_percent = o.net_profit_after_fees / o.total_cost * 100) := by
  have hgate : ¬ (pa < 1/100 ∨ pb < 1/100) := by
    push_neg; exact ⟨hpa, hpb⟩
  constructor
  · simp only [comb_pair_opportunity, h0, h1]
    rw [if_neg hgate]
    split_ifs with h2 h3
    · exact iff_of_true rfl ⟨h2, h3⟩
    · exact iff_of_false (by simp) fun hc => h3 hc.2
    · exact iff_of_false (by simp) fun hc => h2 hc.1
  · intro o ho
    simp only [comb_pair_opportunity, h0, h1] at ho
    rw [if_neg hgate] at ho
    split_ifs at ho with h2 h3
    cases ho
    exact ⟨rfl, rfl, rfl, rfl⟩

/-- Implying market of the C3 spec example: Kalshi, YES 0.70, NO 0.28. -/
def combImplying : Market :=
  { id := "cA", question := some "bitcoin 200k", title := none
    subtitle := none, outcome_prices := [7/10, 7/25], platform := "Kalshi"
    liquidity := 0, close_date := none, url := none }

/-- Implied market of the C3 spec example: Kalshi, YES 0.60. -/
def combImplied : Market :=
  { id := "cB", question := some "bitcoin 150k", title := none
    subtitle := none, outcome_prices := [3/5, 2/5], platform := "Kalshi"
    liquidity := 0, close_date := none, url := none }

/-- C3 witness: implying YES 0.70 / NO 0.28 and implied YES 0.60, both
Kalshi: gap 0.10 > 0.02, gross 0.10, cost 0.88, fees 0.0088,
net 0.0912 ≥ $0.05, so the pair is emitted — with `min_roi = 1` (a 100%
ROI gate), showing the combinatorial path never gates on ROI. -/
theorem comb_detector_spec_witness :
    (comb_pair_opportunity ⟨1, 5/100, 1000⟩ combImplying combImplied).map
      (fun o => (o.gross_profit, o.total_cost, o.net_profit_after_fees)) =
      some (1/10, 22/25, 57/625) := by
  have hfee : get_platform_fee "Kalshi" = 1/100 := rfl
  have h := comb_detector_spec ⟨1, 5/100, 1000⟩ combImplying combImplied
    (7/10) (3/5) rfl rfl (by norm_num) (by norm_num)
  have hs : (comb_pair_opportunity ⟨1, 5/100, 1000⟩ combImplying
      combImplied).isSome = true := by
    apply h.1.mpr
    constructor
    · norm_num
    · show (5 : ℚ)/100 ≤ _
      rw [show priceAt combImplying 1 = 7/25 from rfl,
        show combImplying.platform = "Kalshi" from rfl,
        show combImplied.platform = "Kalshi" from rfl, hfee]
      norm_num
  obtain ⟨o, ho⟩ := Option.isSome_iff_exists.mp hs
  have hf := h.2 o ho
  rw [ho]
  simp only [Option.map_some']
  rw [show priceAt combImplying 1 = 7/25 from rfl,
    show combImplying.platform = "Kalshi" from rfl,
    show combImplied.platform = "Kalshi" from rfl, hfee] at hf
  rw [hf.1, hf.2.1, hf.2.2.1]
  norm_num

/-- C6 amended: the sub-0.01 price-reliability skip is implemented by the
single-venue check and by the combinatorial per-dependency check; the
cross-venue spread check instead skips only legs priced exactly 0.0 (a
price of e.g. 0.005 is used), and the multi-outcome rebalancing check
applies no per-price reliability filter at all (see the counterexample). -/
theorem price_reliability_amended (e : ArbitrageEngine) (m a b : Market) :
    ((priceAt m 0 < 1/100 ∨ priceAt m 1 < 1/100) →
      check_single_platform e m = none) ∧
    ((priceAt a 0 < 1/100 ∨ priceAt b 0 < 1/100) →
      comb_pair_opportunity e a b = none) ∧
    ((priceAt a 0 = 0 ∨ priceAt a 1 = 0 ∨ priceAt b 0 = 0 ∨ priceAt b 1 = 0) →
      calculate_cross_platform_spread e a b = none) := by
  refine ⟨?_, ?_, ?_⟩
  · intro h
    simp only [check_single_platform]
    split_ifs <;> rfl
  · intro h
    simp only [comb_pair_opportunity]
    rw [if_pos h]
  · intro h
    simp only [calculate_cross_platform_spread]
    rw [if_pos h]

/-- A market with three sub-0.01 outcome prices, used to show that the
multi-outcome rebalancing check does NOT skip unreliable prices. -/
def tinyPricesMarket : Market :=
  { id := "t1", question := none, title := none, subtitle := none
    outcome_prices := [1/200, 1/200, 1/200], platform := "Polymarket"
    liquidity := 0, close_date := none, url := none }

/-- C6 counterexample: all outcome prices of `tinyPricesMarket` are 0.005,
below the 0.01 reliability bound, yet the multi-outcome rebalancing check
emits an opportunity for it instead of skipping it. -/
theorem multi_condition_no_price_filter :
    priceAt tinyPricesMarket 0 < 1/100 ∧
    check_multi_condition_rebalancing (ArbitrageEngine.new 1 (5/100) 1000)
      [tinyPricesMarket] ≠ [] := by
  constructor
  · show (1 : ℚ)/200 < 1/100
    norm_num
  · have hfee : get_platform_fee "Polymarket" = 2/100 := rfl
    simp only [check_multi_condition_rebalancing, List.filterMap,
      check_multi_condition_one, tinyPricesMarket, ArbitrageEngine.new,
      MIN_PROFIT_THRESHOLD]
    norm_num [hfee, max_def]

/-- A two-priced market with a sub-0.01 YES price (0.005). -/
def tinyYesMarket : Market :=
  { id := "t2", question := none, title := none, subtitle := none
    outcome_prices := [1/200, 1/2], platform := "Kalshi", liquidity := 0
    close_date := none, url := none }

/-- A market whose YES price is exactly 0. -/
def zeroYesMarket : Market :=
  { id := "t3", question := none, title := none, subtitle := none
    outcome_prices := [0, 1/2], platform := "Kalshi", liquidity := 0
    close_date := none, url := none }

/-- C6 witness: a 0.005 YES price makes the single-venue and combinatorial
checks skip, and an exactly-zero leg makes the spread check skip. -/
theorem price_reliability_amended_witness :
    check_single_platform ⟨0, 5/100, 1000⟩ tinyYesMarket = none ∧
    comb_pair_opportunity ⟨0, 5/100, 1000⟩ tinyYesMarket zeroYesMarket = none ∧
    calculate_cross_platform_spread ⟨0, 5/100, 1000⟩ zeroYesMarket
      tinyYesMarket = none :=
  ⟨(price_reliability_amended ⟨0, 5/100, 1000⟩ tinyYesMarket tinyYesMarket
      zeroYesMarket).1 (Or.inl (by norm_num [priceAt, tinyYesMarket])),
   (price_reliability_amended ⟨0, 5/100, 1000⟩ tinyYesMarket tinyYesMarket
      zeroYesMarket).2.1 (Or.inl (by norm_num [priceAt, tinyYesMarket])),
   (price_reliability_amended ⟨0, 5/100, 1000⟩ tinyYesMarket zeroYesMarket
      tinyYesMarket).2.2 (Or.inl rfl)⟩

/-- Elements surviving deduplication come from the input list. -/
theorem mem_dedupKeys {x : CrossMatch} :
    ∀ (seen : List (String × String)) (l : List CrossMatch),
      x ∈ dedupKeys seen l → x ∈ l := by
  intro seen l
  induction l generalizing seen with
  | nil => simp [dedupKeys]
  | cons m ms ih =>
    intro hx
    simp only [dedupKeys] at hx
    split_ifs at hx with hs
    · exact List.mem_cons_of_mem m (ih seen hx)
    · rcases List.mem_cons.mp hx with h | h
      · exact h ▸ List.mem_cons_self m ms
      · exact List.mem_cons_of_mem m (ih _ h)

/-- Keys of deduplicated elements avoid the `seen` set. -/
theorem mem_dedupKeys_not_seen {x : CrossMatch} :
    ∀ (seen : List (String × String)) (l : List CrossMatch),
      x ∈ dedupKeys seen l → (x.id_a, x.id_b) ∉ seen := by
  intro seen l
  induction l generalizing seen with
  | nil => simp [dedupKeys]
  | cons m ms ih =>
    intro hx
    simp only [dedupKeys] at hx
    split_ifs at hx with hs
    · exact ih seen hx
    · rcases List.mem_cons.mp hx with h | h
      · exact h ▸ hs
      · intro hmem
        exact ih _ h (List.mem_cons_of_mem _ hmem)

/-- Deduplication leaves pairwise-distinct `(id_a, id_b)` keys. -/
theorem dedupKeys_pairwise :
    ∀ (seen : List (String × String)) (l : List CrossMatch),
      (dedupKeys seen l).Pairwise
        (fun x y => (x.id_a, x.id_b) ≠ (y.id_a, y.id_b)) := by
  intro seen l
  induction l generalizing seen with
  | nil => simp [dedupKeys]
  | cons m ms ih =>
    simp only [dedupKeys]
    split_ifs with hs
    · exact ih seen
    · refine List.Pairwise.cons ?_ (ih _)
      intro y hy hk
      exact mem_dedupKeys_not_seen _ _ hy (hk ▸ List.mem_cons_self _ _)

/-- Every match emitted by `match_pair` is the value of `matchCandidate` on
a pair of input markets. -/
theorem mem_match_pair {pd : String → Option ℤ} {A B : List Market}
    {m : CrossMatch} (h : m ∈ match_pair pd A B) :
    ∃ a ∈ A, ∃ b ∈ B, matchCandidate pd a b = some m := by
  have h1 := mem_dedupKeys _ _ h
  rw [List.mem_flatten] at h1
  obtain ⟨l, hl, hm⟩ := h1
  rw [List.mem_map] at hl
  obtain ⟨a, ha, rfl⟩ := hl
  rw [List.mem_filterMap] at hm
  obtain ⟨b, hb, hab⟩ := hm
  exact ⟨a, ha, b, hb, hab⟩

/-- Every match emitted by `match_all` is the value of `matchCandidate` on
a pair of markets of two of the venue groups. -/
theorem mem_match_all {pd : String → Option ℤ}
    {groups : List (String × List Market)} {m : CrossMatch}
    (h : m ∈ match_all pd groups) :
    ∃ gp ∈ upperPairs groups, ∃ a ∈ gp.1.2, ∃ b ∈ gp.2.2,
      matchCandidate pd a b = some m := by
  rw [match_all, List.mem_insertionSort, List.mem_flatten] at h
  obtain ⟨l, hl, hm⟩ := h
  rw [List.mem_map] at hl
  obtain ⟨gp, hgp, rfl⟩ := hl
  obtain ⟨a, ha, b, hb, hab⟩ := mem_match_pair hm
  exact ⟨gp, hgp, a, ha, b, hb, hab⟩

/-- Structure of every emitted match: its confidence is the clamped
entity/year/team formula of its source pair, and it passed the 0.5 gate. -/
theorem matchCandidate_some_spec {pd : String → Option ℤ} {a b : Market}
    {m : CrossMatch} (h : matchCandidate pd a b = some m) :
    m.shared_entities = listInter (process a).entities (process b).entities ∧
    m.confidence =
      min ((m.shared_entities.length : ℚ) * (2/10) +
        (if extract_years (process a).text ≠ [] ∧
            extract_years (process b).text ≠ [] ∧
            listInter (extract_years (process a).text)
              (extract_years (process b).text) ≠ [] then (3 : ℚ)/10 else 0) +
        (if m.category ∈ SPORTS_CATEGORIES then
          ((listInter (process a).teams (process b).teams).length : ℚ) * (3/10)
         else 0)) 1 ∧
    1/2 ≤ m.confidence ∧ 0 ≤ m.confidence ∧ m.confidence ≤ 1 := by
  rcases hcat : (process a).category with _ | cat
  · rw [matchCandidate_eq_none b hcat] at h
    exact absurd h (by simp)
  · rw [matchCandidate_eq_core b hcat] at h
    simp only [matchCandidateCore] at h
    split_ifs at h
    all_goals
      rw [Option.some_inj] at h
      subst h
      dsimp only
      refine ⟨rfl, ?_, le_of_not_lt (by assumption),
        le_trans (show (0 : ℚ) ≤ 1/2 by norm_num) (le_of_not_lt (by assumption)),
        min_le_right _ _⟩
      split_ifs <;> norm_num

/-- C7: two markets whose extracted year sets are both non-empty and
disjoint are never matched, whatever the date parser, prices, entity
overlap, category or teams. -/
theorem year_gate_rejects (pd : String → Option ℤ) (a b : Market)
    (ha : extract_years (process a).text ≠ [])
    (hb : extract_years (process b).text ≠ [])
    (hdisj : ∀ y ∈ extract_years (process a).text,
      y ∉ extract_years (process b).text) :
    matchCandidate pd a b = none := by
  have hinter : listInter (extract_years (process a).text)
      (extract_years (process b).text) = [] := by
    rw [listInter, List.filter_eq_nil_iff]
    intro y hy
    simpa using hdisj y hy
  have hgate : extract_years (process a).text ≠ [] ∧
      extract_years (process b).text ≠ [] ∧
      listInter (extract_years (process a).text)
        (extract_years (process b).text) = [] := ⟨ha, hb, hinter⟩
  rcases hcat : (process a).category with _ | cat
  · exact matchCandidate_eq_none b hcat
  · rw [matchCandidate_eq_core b hcat]
    simp only [matchCandidateCore]
    split_ifs <;> rfl

/-- Market with question "trump biden 2024". -/
def y2024Market : Market :=
  { id := "y24", question := some "trump biden 2024", title := none
    subtitle := none, outcome_prices := [], platform := "Polymarket"
    liquidity := 0, close_date := none, url := none }

/-- Market with question "trump biden 2026". -/
def y2026Market : Market :=
  { id := "y26", question := some "trump biden 2026", title := none
    subtitle := none, outcome_prices := [], platform := "Kalshi"
    liquidity := 0, close_date := none, url := none }

/-- C7 witness: years {2024} vs {2026} — full entity and category overlap,
yet no match. -/
theorem year_gate_rejects_witness :
    matchCandidate (fun _ => none) y2024Market y2026Market = none :=
  year_gate_rejects (fun _ => none) y2024Market y2026Market
    (by decide) (by decide) (by decide)

/-- A date parser that parses nothing (stand-in for `chrono` on inputs with
no close dates). -/
def noParse : String → Option ℤ := fun _ => none

/-- The processed form of the text "trump biden 2024". -/
def trumpBidenProc : ProcessedMarket :=
  { text := "trump biden 2024"
    entities := ["trump", "biden"]
    teams := []
    category := some "us_politics" }

/-- Any market whose effective question is "trump biden 2024" processes to
`trumpBidenProc`. -/
theorem process_trump_biden (a : Market)
    (hqa : get_question a = "trump biden 2024") :
    process a = trumpBidenProc := by
  unfold process
  rw [hqa]
  rfl

/-- The CrossMatch produced for two "trump biden 2024" markets `a`, `b`
(no prices, no close dates, no URLs): entity overlap {trump, biden},
year bonus, confidence 0.7. -/
theorem trump_biden_candidate (a b : Market)
    (hqa : get_question a = "trump biden 2024")
    (hqb : get_question b = "trump biden 2024")
    (hca : a.close_date = none) (hcb : b.close_date = none)
    (hpa : a.outcome_prices = []) (hpb : b.outcome_prices = [])
    (hua : a.url = none) (hub : b.url = none) :
    matchCandidate noParse a b = some
      { platform_a := a.platform, platform_b := b.platform
        id_a := a.id, id_b := b.id
        question_a := "trump biden 2024", question_b := "trump biden 2024"
        yes_price_a := 0, yes_price_b := 0, price_diff := 0
        confidence := 7/10, category := "us_politics"
        shared_entities := ["trump", "biden"]
        url_a := "", url_b := "" } := by
  have hpra := process_trump_biden a hqa
  have hprb := process_trump_biden b hqb
  have hyr : extract_years "trump biden 2024" = ["2024"] := rfl
  have hfl : listInter ["trump", "biden"] ["trump", "biden"] =
    ["trump", "biden"] := rfl
  have hfy : listInter ["2024"] ["2024"] = ["2024"] := rfl
  have hqt : questionTrunc "trump biden 2024" = "trump biden 2024" := rfl
  have hsp : ¬("us_politics" = "nba" ∨ "us_politics" = "nfl" ∨
      "us_politics" = "soccer" ∨ "us_politics" = "mlb") := by decide
  rw [matchCandidate_eq_core b (by rw [hpra]; rfl)]
  norm_num [matchCandidateCore, hpra, hprb, trumpBidenProc, hca, hcb, hpa,
    hpb, hua, hub, hqa, hqb, hyr, hfl, hfy, hqt, priceAt, roundHalfUp,
    min_def, noParse, SPORTS_CATEGORIES, hsp]

/-- Test-fixture market: question "trump biden 2024", no prices, no dates. -/
def tbMarket (id platform : String) : Market :=
  { id := id, question := some "trump biden 2024", title := none
    subtitle := none, outcome_prices := [], platform := platform
    liquidity := 0, close_date := none, url := none }

/-- The CrossMatch produced for a pair of `tbMarket`s. -/
def tbMatch (id_a platform_a id_b platform_b : String) : CrossMatch :=
  { platform_a := platform_a, platform_b := platform_b
    id_a := id_a, id_b := id_b
    question_a := "trump biden 2024", question_b := "trump biden 2024"
    yes_price_a := 0, yes_price_b := 0, price_diff := 0
    confidence := 7/10, category := "us_politics"
    shared_entities := ["trump", "biden"]
    url_a := "", url_b := "" }

theorem tb_candidate (ia pa ib pb : String) :
    matchCandidate noParse (tbMarket ia pa) (tbMarket ib pb) =
      some (tbMatch ia pa ib pb) :=
  trump_biden_candidate (tbMarket ia pa) (tbMarket ib pb)
    rfl rfl rfl rfl rfl rfl rfl rfl

theorem tb_match_pair (ia pa ib pb : String) :
    match_pair noParse [tbMarket ia pa] [tbMarket ib pb] =
      [tbMatch ia pa ib pb] := by
  simp [match_pair, List.filterMap_cons, tb_candidate, dedupKeys]

/-- All `tbMatch`es compare equal under the confidence order. -/
theorem tb_confGE (ia pa ib pb ic pc id' pd : String) :
    confGE (tbMatch ia pa ib pb) (tbMatch ic pc id' pd) :=
  le_refl (7/10 : ℚ)

/-- Venue grouping with the same market id "x" listed under two venues. -/
def collidingGroups : List (String × List Market) :=
  [("P1", [tbMarket "x" "P1"]), ("P2", [tbMarket "x" "P2"]),
   ("P3", [tbMarket "y" "P3"])]

theorem match_all_collidingGroups :
    (match_all noParse collidingGroups).map (fun m => (m.id_a, m.id_b)) =
      [("x", "x"), ("x", "y"), ("x", "y")] := by
  simp only [collidingGroups, match_all, upperPairs, List.map_cons,
    List.map_nil, List.append_nil, List.cons_append, List.nil_append,
    tb_match_pair, List.flatten]
  simp only [List.insertionSort, List.orderedInsert, tb_confGE, if_true,
    ite_true]
  simp [tbMatch]

/-- C4 (amended): every match in the full `match_all` output has
`confidence ∈ [0.5, 1] ⊆ [0, 1]`; the full output is sorted by confidence
descending; `(id_a, id_b)` keys are pairwise distinct WITHIN EACH VENUE
PAIR (`match_pair` output); and every emitted match's confidence is the
clamped 0.2·entities + 0.3·years + 0.3·teams formula.  (Global key
uniqueness across venue pairs fails when the same market id occurs under
two venues — see the counterexample.) -/
theorem matcher_output_invariants (pd : String → Option ℤ)
    (groups : List (String × List Market)) (A B : List Market)
    (a b : Market) (m : CrossMatch) :
    (∀ x ∈ match_all pd groups,
      0 ≤ x.confidence ∧ x.confidence ≤ 1 ∧ 1/2 ≤ x.confidence) ∧
    (match_all pd groups).Sorted confGE ∧
    (match_pair pd A B).Pairwise
      (fun x y => (x.id_a, x.id_b) ≠ (y.id_a, y.id_b)) ∧
    (matchCandidate pd a b = some m →
      m.confidence =
        min ((m.shared_entities.length : ℚ) * (2/10) +
          (if extract_years (process a).text ≠ [] ∧
              extract_years (process b).text ≠ [] ∧
              listInter (extract_years (process a).text)
                (extract_years (process b).text) ≠ [] then (3 : ℚ)/10
           else 0) +
          (if m.category ∈ SPORTS_CATEGORIES then
            ((listInter (process a).teams (process b).teams).length : ℚ) *
              (3/10)
           else 0)) 1) := by
  refine ⟨?_, List.sorted_insertionSort confGE _, dedupKeys_pairwise [] _,
    fun h => (matchCandidate_some_spec h).2.1⟩
  intro x hx
  obtain ⟨gp, _, a', _, b', _, hab⟩ := mem_match_all hx
  have hs := matchCandidate_some_spec hab
  exact ⟨hs.2.2.2.1, hs.2.2.2.2, hs.2.2.1⟩

/-- Fallback CrossMatch record. -/
def emptyMatch : CrossMatch :=
  { platform_a := "", platform_b := "", id_a := "", id_b := ""
    question_a := "", question_b := "", yes_price_a := 0, yes_price_b := 0
    price_diff := 0, confidence := 0, category := ""
    shared_entities := [], url_a := "", url_b := "" }

/-- C4 witness: on the concrete colliding-id grouping the output is sorted,
and the emitted "trump biden 2024" pair match carries the formula
confidence min(2·0.2 + 0.3 + 0, 1) = 0.7. -/
theorem matcher_output_invariants_witness :
    ((matchCandidate noParse (tbMarket "x" "P1") (tbMarket "y" "P3")).getD
        emptyMatch).confidence =
      min ((((matchCandidate noParse (tbMarket "x" "P1")
          (tbMarket "y" "P3")).getD emptyMatch).shared_entities.length : ℚ) *
          (2/10) +
        (if extract_years (process (tbMarket "x" "P1")).text ≠ [] ∧
            extract_years (process (tbMarket "y" "P3")).text ≠ [] ∧
            listInter (extract_years (process (tbMarket "x" "P1")).text)
              (extract_years (process (tbMarket "y" "P3")).text) ≠ []
         then (3 : ℚ)/10 else 0) +
        (if ((matchCandidate noParse (tbMarket "x" "P1")
            (tbMarket "y" "P3")).getD emptyMatch).category ∈
              SPORTS_CATEGORIES then
          ((listInter (process (tbMarket "x" "P1")).teams
            (process (tbMarket "y" "P3")).teams).length : ℚ) * (3/10)
         else 0)) 1 ∧
    (match_all noParse collidingGroups).Sorted confGE := by
  have h := matcher_output_invariants noParse collidingGroups [] []
    (tbMarket "x" "P1") (tbMarket "y" "P3")
    ((matchCandidate noParse (tbMarket "x" "P1") (tbMarket "y" "P3")).getD
      emptyMatch)
  refine ⟨h.2.2.2 ?_, h.2.1⟩
  rw [tb_candidate]
  rfl

/-- C4 counterexample: with market id "x" listed under venues P1 and P2 and
id "y" under P3, the venue pairs (P1,P3) and (P2,P3) each emit a match
keyed ("x","y"), so two records of the FULL `match_all` output share the
same `(id_a, id_b)` pair — the claimed global uniqueness is false. -/
theorem matcher_global_dedup_cex :
    ¬ (match_all noParse collidingGroups).Pairwise
        (fun x y => (x.id_a, x.id_b) ≠ (y.id_a, y.id_b)) := by
  intro hp
  have h2 : ([("x", "x"), ("x", "y"), ("x", "y")] :
      List (String × String)).Pairwise (· ≠ ·) := by
    rw [← match_all_collidingGroups]
    exact List.pairwise_map.mpr hp
  exact absurd h2 (by decide)

/-- C8: `match_all` iterates the venue groups in `HashMap` key order, which
Rust randomizes per run; presenting the same snapshot with the two venue
keys in the two possible orders yields different CrossMatch sets — the
matched pair comes out as (id_a,id_b) = ("x","y") in one run and ("y","x")
in the other, so the external dedup id `cross_{id_a}_{id_b}` is NOT a
deterministic function of the underlying market pair across cycles. -/
theorem match_all_key_order_dependent :
    ((match_all noParse [("Polymarket", [tbMarket "x" "Polymarket"]),
        ("Kalshi", [tbMarket "y" "Kalshi"])]).map
      fun m => (m.id_a, m.id_b)) = [("x", "y")] ∧
    ((match_all noParse [("Kalshi", [tbMarket "y" "Kalshi"]),
        ("Polymarket", [tbMarket "x" "Polymarket"])]).map
      fun m => (m.id_a, m.id_b)) = [("y", "x")] := by
  constructor <;>
  · simp only [match_all, upperPairs, List.map_cons, List.map_nil,
      List.append_nil, List.cons_append, List.nil_append, tb_match_pair,
      List.flatten]
    simp [List.insertionSort, List.orderedInsert, tbMatch]

/-- Market whose text puts a multi-byte character astride byte 25:
"bitcoin 200k aaaaaaaaaaa€" (24 ASCII bytes, then the 3-byte "€"). -/
def unicodeMarket : Market :=
  { id := "u1", question := some "bitcoin 200k aaaaaaaaaaa€", title := none
    subtitle := none, outcome_prices := [9/10, 1/20], platform := "Kalshi"
    liquidity := 0, close_date := none, url := none }

/-- C5: the detectors are NOT total over arbitrary Unicode text.  On the
snapshot [`unicodeMarket`, `combImplied`] the combinatorial detector finds
the "bitcoin 200k" → "bitcoin 150k" dependency and emits an opportunity,
which makes the Rust code evaluate `truncate_text(implying_text, 25)` —
and that call slices `&text[..25]` at byte 25, which falls inside the
multi-byte "€", so the real program panics instead of returning. -/
theorem combinatorial_truncate_panics :
    truncate_text_panics (get_market_text unicodeMarket) 25 = true ∧
    detect_dependencies [unicodeMarket, combImplied] =
      [{ implied_market := 1, implying_market := 0
         dependency_type := "implies" }] ∧
    (check_combinatorial_arbitrage ⟨0, 5/100, 1000⟩
      [unicodeMarket, combImplied]).length = 1 := by
  have hdeps : detect_dependencies [unicodeMarket, combImplied] =
      [{ implied_market := 1, implying_market := 0
         dependency_type := "implies" }] := by decide
  refine ⟨by decide, hdeps, ?_⟩
  have hfee : get_platform_fee "Kalshi" = 1/100 := rfl
  have hcomb : (comb_pair_opportunity ⟨0, 5/100, 1000⟩ unicodeMarket
      combImplied).isSome = true := by
    simp only [comb_pair_opportunity, priceAt, unicodeMarket, combImplied]
    norm_num [hfee]
  obtain ⟨o, ho⟩ := Option.isSome_iff_exists.mp hcomb
  simp only [check_combinatorial_arbitrage, hdeps, List.filterMap_cons,
    List.filterMap_nil]
  rw [show ([unicodeMarket, combImplied].get? 0) = some unicodeMarket
    from rfl]
  rw [show ([unicodeMarket, combImplied].get? 1) = some combImplied
    from rfl]
  simp [ho]
